/-
Verification of the particle-simulation core of `shoushi` (src/index.tsx).

The TypeScript source is shallowly embedded below:
  * float scalars become `ℚ` where the code only adds/multiplies/compares,
    and `ℝ` where the code uses `Math.sqrt` / trigonometry;
  * the `Int32Array` grid arrays (`gridHead`, `gridNext`) become total
    functions `Int → Int` / `Nat → Int` with `-1` as the "empty" sentinel,
    exactly as in the source;
  * each definition carries a comment pointing at the source lines it
    translates.
-/
import Mathlib

namespace Shoushi

/-! ## Configuration constants (src/index.tsx lines 17-25) -/

def PARTICLE_COUNT : Nat := 25000

def COLLISION_RADIUS : ℚ := 0.15

def GRID_DIM : Int := 60

def GRID_OFFSET : ℚ := 30

def CELL_SIZE : ℚ := 1

/-! ## Spatial hash grid (src/index.tsx lines 77-79, 787, 917-930)

`gridHead.fill(-1)` clears the grid each frame; during the particle loop
each particle computes `gx = floor((x + GRID_OFFSET) / CELL_SIZE)` (same
for y, z) and, if all three are in `[0, GRID_DIM)`, prepends itself to
the linked list of cell `gx + gy*GRID_DIM + gz*GRID_DIM*GRID_DIM`;
otherwise its `next` pointer is set to `-1` and it joins no list. -/

/-- One grid axis coordinate: `Math.floor((p + GRID_OFFSET) / CELL_SIZE)`
(src/index.tsx lines 919-921). -/
def cellCoord (p : ℚ) : Int := Int.floor ((p + GRID_OFFSET) / CELL_SIZE)

/-- Linearised cell index `gx + gy * GRID_DIM + gz * GRID_DIM * GRID_DIM`
(src/index.tsx line 924). -/
def cellIndex (gx gy gz : Int) : Int := gx + gy * GRID_DIM + gz * GRID_DIM * GRID_DIM

/-- The in-domain test and cell index of a position: `some cell` when all
three axis coordinates are in `[0, GRID_DIM)` (src/index.tsx line 923),
`none` otherwise. -/
def cellKey3 (p : ℚ × ℚ × ℚ) : Option Int :=
  let gx := cellCoord p.1
  let gy := cellCoord p.2.1
  let gz := cellCoord p.2.2
  if 0 ≤ gx ∧ gx < GRID_DIM ∧ 0 ≤ gy ∧ gy < GRID_DIM ∧ 0 ≤ gz ∧ gz < GRID_DIM then
    some (cellIndex gx gy gz)
  else
    none

/-- The two linked-list arrays `gridHead` / `gridNext` (src/index.tsx
lines 78-79), as total functions with `-1` meaning "empty". -/
structure Grid where
  head : Int → Int
  next : Nat → Int

/-- `gridHead.fill(-1)` (src/index.tsx line 787); `next0` is whatever the
`gridNext` array holds before this frame rewrites it. -/
def gridClear (next0 : Nat → Int) : Grid := ⟨fun _ => -1, next0⟩

/-- The per-particle grid insert (src/index.tsx lines 918-930):
in-domain → `gridNext[i] = gridHead[cell]; gridHead[cell] = i`,
out-of-domain → `gridNext[i] = -1`. -/
def gridInsert (g : Grid) (i : Nat) (p : ℚ × ℚ × ℚ) : Grid :=
  match cellKey3 p with
  | some c =>
      ⟨fun c' => if c' = c then (i : Int) else g.head c',
       fun j => if j = i then g.head c else g.next j⟩
  | none =>
      ⟨g.head, fun j => if j = i then -1 else g.next j⟩

/-- The frame's grid rebuild: clear, then one insert per particle
`i = 0, 1, …, n-1` at its current position. -/
def buildGrid (pos : Nat → ℚ × ℚ × ℚ) (n : Nat) (next0 : Nat → Int) : Grid :=
  (List.range n).foldl (fun g i => gridInsert g i (pos i)) (gridClear next0)

/-- The bounded linked-list walk of the collision resolver
(src/index.tsx lines 951-954, 988-989): starting from a head value,
follow `next` for at most `fuel` entries, stopping at the `-1` sentinel.
`fuel` is the `checks < 8` counter of the `while` loop. -/
def walkList (next : Nat → Int) : Nat → Int → List Nat
  | 0, _ => []
  | fuel + 1, p => if p = -1 then [] else p.toNat :: walkList next fuel (next p.toNat)

/-- The list of particles recorded in cell `c`, read off by walking the
grid's linked list with the given fuel. -/
def cellList (g : Grid) (fuel : Nat) (c : Int) : List Nat :=
  walkList g.next fuel (g.head c)

/-! ## Pinch debounce latch (src/index.tsx lines 830-846)

In earth mode each frame computes a ray-sphere hit test (`delta > 0`) and
the pinch flag; the latch `pinchTriggered` gates the `showHackerData`
event. -/

/-- One frame of the latch logic, returning (new latch, event fired):
hit ∧ pinch ∧ ¬latch → set the latch and fire; hit ∧ pinch ∧ latch →
nothing; hit ∧ ¬pinch → clear; miss → clear (src/index.tsx 830-846). -/
def pinchStep (latch : Bool) (hit pinch : Bool) : Bool × Bool :=
  if hit then
    if pinch then
      if latch then (true, false) else (true, true)
    else (false, false)
  else (false, false)

/-- Total number of acquisition events over a scripted per-frame sequence
of (hit, pinch) inputs, starting from a given latch state. -/
def pinchRun : Bool → List (Bool × Bool) → Nat
  | _, [] => 0
  | latch, (h, p) :: rest =>
      (if (pinchStep latch h p).2 then 1 else 0) + pinchRun (pinchStep latch h p).1 rest

/-- Latch state after consuming a sequence of (hit, pinch) inputs. -/
def latchAfter : Bool → List (Bool × Bool) → Bool
  | latch, [] => latch
  | latch, (h, p) :: rest => latchAfter (pinchStep latch h p).1 rest

/-- Number of rising edges of a boolean signal, given the value the
signal had just before the list starts. -/
def risingEdges : Bool → List Bool → Nat
  | _, [] => 0
  | prev, b :: rest => (if b && !prev then 1 else 0) + risingEdges b rest

/-! ## Shockwave update (src/index.tsx lines 752, 300-302, 834-839)

Each frame: `shockwave *= 0.95` (line 752); then, inside
`updateAudioAnalysis`, if the freshly smoothed `bassFactor` exceeds 0.8,
`shockwave = Math.min(shockwave + 0.1, 2.0)` (lines 300-302); then, if an
acquisition event fires this frame, `shockwave = 0.5` (line 837).
`bassBoost` abstracts "audio active and new bassFactor > 0.8", `acquire`
abstracts "earth mode, hand detected, ray hit, pinch, latch clear". -/
def shockwaveFrame (s : ℚ) (bassBoost : Bool) (acquire : Bool) : ℚ :=
  let s1 := s * 0.95
  let s2 := if bassBoost then min (s1 + 0.1) 2 else s1
  if acquire then 0.5 else s2

/-! ## Velocity damping (src/index.tsx lines 905-915)

`velocities[c] += force; velocities[c] *= 0.92; position[c] += velocities[c]`
per component. `velStep` is one frame's velocity update given the summed
force contribution (spring + pointer + audio jitter). -/

/-- One frame's velocity update for one particle:
add the accumulated force, then damp by 0.92 componentwise. -/
def velStep (v f : ℚ × ℚ × ℚ) : ℚ × ℚ × ℚ :=
  ((v.1 + f.1) * 0.92, (v.2.1 + f.2.1) * 0.92, (v.2.2 + f.2.2) * 0.92)

/-- Velocity after `t` frames with all force contributions zero. -/
def iterVel : Nat → (ℚ × ℚ × ℚ) → ℚ × ℚ × ℚ
  | 0, v => v
  | t + 1, v => iterVel t (velStep v (0, 0, 0))

/-- Squared Euclidean norm of a velocity. -/
def normSq (v : ℚ × ℚ × ℚ) : ℚ := v.1 ^ 2 + v.2.1 ^ 2 + v.2.2 ^ 2

/-! ## Collision resolver (src/index.tsx lines 934-993)

Positions live in `ℝ` here because the resolver divides by
`Math.sqrt(d2)`. The resolver walks at most 8 same-cell neighbors per
particle; each overlapping pair is pushed apart along the connecting
normal, half the penetration each, softened by 0.5. The distances for
particle `i` are measured from the position `p` read once at the top of
`i`'s iteration (lines 940-942), while the stored positions (both `i`'s
and the neighbor's) accumulate the corrections in place. -/

/-- Grid axis coordinate of a real position (src/index.tsx lines 944-946). -/
noncomputable def cellCoordR (p : ℝ) : Int :=
  Int.floor ((p + (GRID_OFFSET : ℝ)) / (CELL_SIZE : ℝ))

/-- In-domain test and cell index on real positions (src/index.tsx
lines 948-949). -/
noncomputable def cellKey3R (p : ℝ × ℝ × ℝ) : Option Int :=
  let gx := cellCoordR p.1
  let gy := cellCoordR p.2.1
  let gz := cellCoordR p.2.2
  if 0 ≤ gx ∧ gx < GRID_DIM ∧ 0 ≤ gy ∧ gy < GRID_DIM ∧ 0 ≤ gz ∧ gz < GRID_DIM then
    some (cellIndex gx gy gz)
  else
    none

/-- Squared distance between two positions. -/
def sqDist (p q : ℝ × ℝ × ℝ) : ℝ :=
  (p.1 - q.1) * (p.1 - q.1) + (p.2.1 - q.2.1) * (p.2.1 - q.2.1) +
    (p.2.2 - q.2.2) * (p.2.2 - q.2.2)

/-- The body of the neighbor `while` loop for one visited entry
(src/index.tsx lines 955-986): self is skipped; a pair with
`0 < d2 < collisionRadius²` is separated along the normal, 50/50,
softened by 0.5; `p` is the position of `i` read at loop entry. -/
noncomputable def resolvePair (i : Nat) (p : ℝ × ℝ × ℝ) (nb : Nat)
    (pos : Nat → ℝ × ℝ × ℝ) : Nat → ℝ × ℝ × ℝ :=
  if nb = i then pos
  else
    let q := pos nb
    let dx := p.1 - q.1
    let dy := p.2.1 - q.2.1
    let dz := p.2.2 - q.2.2
    let d2 := dx * dx + dy * dy + dz * dz
    if 0 < d2 ∧ d2 < (COLLISION_RADIUS : ℝ) * (COLLISION_RADIUS : ℝ) then
      let dist := Real.sqrt d2
      let pen := (COLLISION_RADIUS : ℝ) - dist
      let sx := dx / dist * pen * 0.5
      let sy := dy / dist * pen * 0.5
      let sz := dz / dist * pen * 0.5
      fun j =>
        if j = i then ((pos i).1 + sx, (pos i).2.1 + sy, (pos i).2.2 + sz)
        else if j = nb then ((pos nb).1 - sx, (pos nb).2.1 - sy, (pos nb).2.2 - sz)
        else pos j
    else pos

/-- One particle's collision resolution (src/index.tsx lines 938-991):
recompute the cell from the current position, and if in-domain, fold the
pair resolution over the ≤ 8 visited linked-list entries. -/
noncomputable def resolveStep (g : Grid) (pos : Nat → ℝ × ℝ × ℝ) (i : Nat) :
    Nat → ℝ × ℝ × ℝ :=
  let p := pos i
  match cellKey3R p with
  | some c => (walkList g.next 8 (g.head c)).foldl (fun pos' nb => resolvePair i p nb pos') pos
  | none => pos

/-- One full collision-resolution pass over all particles, in index order
(src/index.tsx lines 935-993). -/
noncomputable def collisionPass (g : Grid) (n : Nat) (pos : Nat → ℝ × ℝ × ℝ) :
    Nat → ℝ × ℝ × ℝ :=
  (List.range n).foldl (resolveStep g) pos

/-- A concrete particle layout with all pairwise gaps ≥ 10 world units:
particle `i` sits at `(10·i, 0, 0)`. -/
noncomputable def spreadPos (i : Nat) : ℝ × ℝ × ℝ := ((10 : ℝ) * i, 0, 0)

/-- A concrete particle layout with all particles coincident at
`(1, 2, 3)` — a degenerate zero-distance configuration. -/
noncomputable def coincidentPos : Nat → ℝ × ℝ × ℝ := fun _ => (1, 2, 3)

/-! ## Pointer interaction force (src/index.tsx lines 879-895)

`Math.atan2(y, x)` is modelled by the argument of the complex number
`x + y*I`, which has the same value (range `(-π, π]`, `atan2 0 0 = 0`). -/

/-- `Math.atan2 y x`, as the complex argument of `⟨x, y⟩`. -/
noncomputable def atan2 (y x : ℝ) : ℝ := Complex.arg ⟨x, y⟩

/-- The per-particle pointer force (src/index.tsx lines 879-895):
zero unless the shape is not earth, the planar squared distance to the
interaction point is `< 150`, and `mouse.x > -100`; then a repulsion of
strength `1.2 * (12 - d)/12` (only when positive) along
`(cos (atan2 dy dx), sin (atan2 dy dx), 0)`. -/
noncomputable def pointerForce (shape : String) (mousex ipx ipy px py : ℝ) : ℝ × ℝ × ℝ :=
  let dx := px - ipx
  let dy := py - ipy
  let distSq := dx * dx + dy * dy
  if shape ≠ "earth" ∧ distSq < 150 ∧ mousex > -100 then
    let dist := Real.sqrt distSq
    let force := (12 - dist) / 12
    if force > 0 then
      let angle := atan2 dy dx
      let strength := 1.2 * force
      (Real.cos angle * strength, Real.sin angle * strength, 0)
    else (0, 0, 0)
  else (0, 0, 0)

/-! ## IEEE-style scalar model for the degenerate-ray analysis

The interaction point `origin + direction * ((0 - origin.z) / direction.z)`
(src/index.tsx lines 813-814) divides by `direction.z`. In JavaScript
this yields `±Infinity` or `NaN` rather than an error, so to analyse the
parallel-ray case the scalars are modelled as finite reals extended with
signed infinities (`inf true` is `+∞`) and `nan`, with the IEEE-754
propagation rules for the operations the code path uses. -/

inductive FP where
  | nan : FP
  | inf : Bool → FP
  | fin : ℝ → FP

/-- IEEE addition: `nan` propagates, opposite infinities give `nan`. -/
noncomputable def FP.add : FP → FP → FP
  | nan, _ => nan
  | _, nan => nan
  | inf s, inf t => if s = t then inf s else nan
  | inf s, fin _ => inf s
  | fin _, inf t => inf t
  | fin x, fin y => fin (x + y)

/-- IEEE negation. -/
noncomputable def FP.neg : FP → FP
  | nan => nan
  | inf s => inf (!s)
  | fin x => fin (-x)

/-- IEEE subtraction. -/
noncomputable def FP.sub (a b : FP) : FP := a.add b.neg

/-- IEEE multiplication: `0 * ∞ = nan`, signs multiply. -/
noncomputable def FP.mul : FP → FP → FP
  | nan, _ => nan
  | _, nan => nan
  | inf s, inf t => inf (s == t)
  | inf s, fin y => if y = 0 then nan else inf (s == decide (0 < y))
  | fin x, inf t => if x = 0 then nan else inf (t == decide (0 < x))
  | fin x, fin y => fin (x * y)

/-- IEEE division: `x/0 = ±∞` for `x ≠ 0`, `0/0 = nan`, `∞/∞ = nan`. -/
noncomputable def FP.div : FP → FP → FP
  | nan, _ => nan
  | _, nan => nan
  | inf _, inf _ => nan
  | inf s, fin y => inf (s == decide (0 ≤ y))
  | fin _, inf _ => fin 0
  | fin x, fin y =>
      if y = 0 then (if x = 0 then nan else inf (decide (0 < x)))
      else fin (x / y)

/-- IEEE `<`: any comparison with `nan` is false. -/
noncomputable def FP.lt : FP → FP → Bool
  | nan, _ => false
  | _, nan => false
  | inf s, inf t => !s && t
  | inf s, fin _ => !s
  | fin _, inf t => t
  | fin x, fin y => decide (x < y)

/-- IEEE square root: negative or `-∞` argument gives `nan`. -/
noncomputable def FP.sqrtF : FP → FP
  | nan => nan
  | inf s => if s then inf s else nan
  | fin x => if 0 ≤ x then fin (Real.sqrt x) else nan

/-- IEEE cosine: `nan` on `nan` or infinite argument. -/
noncomputable def FP.cosF : FP → FP
  | fin x => fin (Real.cos x)
  | _ => nan

/-- IEEE sine: `nan` on `nan` or infinite argument. -/
noncomputable def FP.sinF : FP → FP
  | fin x => fin (Real.sin x)
  | _ => nan

/-- IEEE `atan2`, including its defined values at infinities. -/
noncomputable def FP.atan2F : FP → FP → FP
  | nan, _ => nan
  | _, nan => nan
  | inf sy, inf sx =>
      fin ((if sy then (1 : ℝ) else -1) * (if sx then Real.pi / 4 else 3 * Real.pi / 4))
  | inf sy, fin _ => fin (if sy then Real.pi / 2 else -(Real.pi / 2))
  | fin y, inf sx => fin (if sx then 0 else if 0 ≤ y then Real.pi else -Real.pi)
  | fin y, fin x => fin (atan2 y x)

/-- The interaction point `origin + direction * ((0 - origin.z) / direction.z)`
over the IEEE-style scalars (src/index.tsx lines 813-814). -/
noncomputable def interactPointF (ox oy oz dx dy dz : FP) : FP × FP × FP :=
  let t := ((FP.fin 0).sub oz).div dz
  (ox.add (dx.mul t), oy.add (dy.mul t), oz.add (dz.mul t))

/-- The pointer force over the IEEE-style scalars (src/index.tsx
lines 879-895); the deciding guard is `distSq < 150`, which is false for
a `nan` or `+∞` squared distance. -/
noncomputable def pointerForceF (shapeIsEarth mouseActive : Bool) (ipx ipy px py : FP) :
    FP × FP × FP :=
  let dx := px.sub ipx
  let dy := py.sub ipy
  let distSq := (dx.mul dx).add (dy.mul dy)
  if !shapeIsEarth && FP.lt distSq (FP.fin 150) && mouseActive then
    let dist := distSq.sqrtF
    let force := ((FP.fin 12).sub dist).div (FP.fin 12)
    if FP.lt (FP.fin 0) force then
      let angle := FP.atan2F dy dx
      let strength := (FP.fin 1.2).mul force
      (angle.cosF.mul strength, angle.sinF.mul strength, FP.fin 0)
    else (FP.fin 0, FP.fin 0, FP.fin 0)
  else (FP.fin 0, FP.fin 0, FP.fin 0)

/-! ## Shape field library (src/index.tsx lines 330-544)

Each generator is a pure function of the RNG stream; `rng i j` stands
for the value of the j-th `Math.random()` call made while producing
point `i`, an arbitrary real in `[0, 1)`. Trigonometry is exact real
trigonometry. -/

/-- The RNG contract of `Math.random()`: every draw lies in `[0, 1)`. -/
def RngOk (rng : ℕ → ℕ → ℝ) : Prop := ∀ k j, 0 ≤ rng k j ∧ rng k j < 1

/-- `generateEarth` (src/index.tsx lines 349-372): golden-spiral sphere of
radius 14, raised by 0.2 on a coarse grid pattern. Uses no randomness
(the computed `noise` value on line 359 is never used). -/
noncomputable def generateEarth (_rng : ℕ → ℕ → ℝ) : List (ℝ × ℝ × ℝ) :=
  List.ofFn fun i : Fin PARTICLE_COUNT =>
    let phi := Real.arccos (-1 + (2 * (i : ℕ)) / (PARTICLE_COUNT : ℝ))
    let theta := Real.sqrt ((PARTICLE_COUNT : ℝ) * Real.pi) * phi
    let isGrid := Int.floor (phi * 10) % 2 = 0 ∨ Int.floor (theta * 10) % 2 = 0
    let r : ℝ := if isGrid then 14 + 0.2 else 14
    (r * Real.cos theta * Real.sin phi, r * Real.sin theta * Real.sin phi, r * Real.cos phi)

/-- `generateHeart` (src/index.tsx lines 375-387). -/
noncomputable def generateHeart (rng : ℕ → ℕ → ℝ) : List (ℝ × ℝ × ℝ) :=
  List.ofFn fun i : Fin PARTICLE_COUNT =>
    let t := rng i 0 * (Real.pi * 2)
    let x := 16 * Real.sin t ^ 3
    let y := 13 * Real.cos t - 5 * Real.cos (2 * t) - 2 * Real.cos (3 * t) - Real.cos (4 * t)
    let z := (rng i 1 - 0.5) * 10 * (1 - |y| / 25)
    (x * 0.8, y * 0.8, z)

/-- `generateFlower` (src/index.tsx lines 389-403), rose curve with k = 6. -/
noncomputable def generateFlower (rng : ℕ → ℕ → ℝ) : List (ℝ × ℝ × ℝ) :=
  List.ofFn fun i : Fin PARTICLE_COUNT =>
    let u := rng i 0 * (Real.pi * 2)
    let v := rng i 1 * Real.pi
    let r := Real.cos (6 * u) * 10 + 6
    (r * Real.sin v * Real.cos u,
     r * Real.cos v * 0.8 + (rng i 2 - 0.5) * 3,
     r * Real.sin v * Real.sin u)

/-- `generateSaturn` (src/index.tsx lines 405-430): the first
`floor(N * 0.4) = 10000` particles sample the planet body, the rest the
tilted ring. -/
noncomputable def generateSaturn (rng : ℕ → ℕ → ℝ) : List (ℝ × ℝ × ℝ) :=
  List.ofFn fun i : Fin PARTICLE_COUNT =>
    if (i : ℕ) < 10000 then
      let theta := rng i 0 * (Real.pi * 2)
      let phi := Real.arccos (2 * rng i 1 - 1)
      (9 * Real.sin phi * Real.cos theta, 9 * Real.sin phi * Real.sin theta, 9 * Real.cos phi)
    else
      let angle := rng i 0 * (Real.pi * 2)
      let dist := 14 + rng i 1 * 15
      let rX := Real.cos angle * dist
      let rZ := Real.sin angle * dist
      let rY := (rng i 2 - 0.5) * 0.5
      (rX * Real.cos 0.4 - rY * Real.sin 0.4, rX * Real.sin 0.4 + rY * Real.cos 0.4, rZ)

/-- One `addSphere` call of `generateBuddha` (src/index.tsx lines
435-446): appends `count` sphere samples, stopping early when the total
particle budget is exhausted; draw indices continue from `acc.length`. -/
noncomputable def buddhaSphere (rng : ℕ → ℕ → ℝ) (cx cy cz r : ℝ) (count : ℕ)
    (acc : List (ℝ × ℝ × ℝ)) : List (ℝ × ℝ × ℝ) :=
  acc ++ (List.range (min count (PARTICLE_COUNT - acc.length))).map fun j =>
    let k := acc.length + j
    let theta := rng k 0 * (Real.pi * 2)
    let phi := Real.arccos (2 * rng k 1 - 1)
    (cx + r * Real.sin phi * Real.cos theta,
     cy + r * Real.sin phi * Real.sin theta,
     cz + r * Real.cos phi)

/-- `generateBuddha` (src/index.tsx lines 432-460): five weighted spheres
(counts `N*0.35, N*0.25, N*0.15, N*0.05, N*0.05`), then a surrounding
ring fills the remaining budget. -/
noncomputable def generateBuddha (rng : ℕ → ℕ → ℝ) : List (ℝ × ℝ × ℝ) :=
  let l1 := buddhaSphere rng 0 (-6) 0 7 8750 []
  let l2 := buddhaSphere rng 0 2 0 4.5 6250 l1
  let l3 := buddhaSphere rng 0 7.5 0 3 3750 l2
  let l4 := buddhaSphere rng (-4.5) 1 0 2 1250 l3
  let l5 := buddhaSphere rng 4.5 1 0 2 1250 l4
  l5 ++ (List.range (PARTICLE_COUNT - l5.length)).map fun j =>
    let k := l5.length + j
    let t := rng k 0 * (Real.pi * 2)
    let r := 15 + rng k 1 * 3
    (r * Real.cos t, (rng k 2 - 0.5) * 28, r * Real.sin t)

/-- `generateGalaxy` (src/index.tsx lines 462-477), 5 spiral arms. -/
noncomputable def generateGalaxy (rng : ℕ → ℕ → ℝ) : List (ℝ × ℝ × ℝ) :=
  List.ofFn fun i : Fin PARTICLE_COUNT =>
    let t := rng i 0
    let angle := t * Real.pi * 2 * 3 + (((i : ℕ) % 5 : ℕ) : ℝ) * (Real.pi * 2 / 5)
    let radius := t * 20
    let spread := (rng i 1 - 0.5) * (5 * t)
    (Real.cos angle * radius + spread,
     (rng i 2 - 0.5) * (3 * (1 - t) + 0.5),
     Real.sin angle * radius + spread)

/-- `generateDNA` (src/index.tsx lines 479-505): two opposite-phase
strands at radius 6 plus interpolated rungs. -/
noncomputable def generateDNA (rng : ℕ → ℕ → ℝ) : List (ℝ × ℝ × ℝ) :=
  List.ofFn fun i : Fin PARTICLE_COUNT =>
    let ty := rng i 0
    let h := (rng i 1 - 0.5) * 45
    let t := h * 0.6
    if ty < 0.4 then
      (Real.cos t * 6 + (rng i 2 - 0.5), h, Real.sin t * 6 + (rng i 3 - 0.5))
    else if ty < 0.8 then
      (Real.cos (t + Real.pi) * 6 + (rng i 2 - 0.5), h,
       Real.sin (t + Real.pi) * 6 + (rng i 3 - 0.5))
    else
      let percent := rng i 2
      let x1 := Real.cos t * 6
      let z1 := Real.sin t * 6
      let x2 := Real.cos (t + Real.pi) * 6
      let z2 := Real.sin (t + Real.pi) * 6
      (x1 + (x2 - x1) * percent, h, z1 + (z2 - z1) * percent)

/-- `generateQuantumCube` (src/index.tsx lines 507-529): nested cube
shells of half-size 3/7/12, one random axis clamped to a face. -/
noncomputable def generateQuantumCube (rng : ℕ → ℕ → ℝ) : List (ℝ × ℝ × ℝ) :=
  List.ofFn fun i : Fin PARTICLE_COUNT =>
    let layer := rng i 0
    let size : ℝ := if layer < 0.2 then 3 else if layer < 0.5 then 7 else 12
    let axis := Int.floor (rng i 1 * 3)
    let dir : ℝ := if rng i 2 > 0.5 then 1 else -1
    let x := (rng i 3 - 0.5) * 2 * size
    let y := (rng i 4 - 0.5) * 2 * size
    let z := (rng i 5 - 0.5) * 2 * size
    if axis = 0 then (size * dir, y, z)
    else if axis = 1 then (x, size * dir, z)
    else (x, y, size * dir)

/-- `generateMobiusStrip` (src/index.tsx lines 531-544). -/
noncomputable def generateMobiusStrip (rng : ℕ → ℕ → ℝ) : List (ℝ × ℝ × ℝ) :=
  List.ofFn fun i : Fin PARTICLE_COUNT =>
    let u := rng i 0 * (Real.pi * 2)
    let v := (rng i 1 - 0.5) * 6
    ((10 + v / 2 * Real.cos (u / 2)) * Real.cos u,
     (10 + v / 2 * Real.cos (u / 2)) * Real.sin u,
     v / 2 * Real.sin (u / 2))

/-- All coordinates bounded by 30 in absolute value — the real-number
rendering of "no NaN or Inf": every generated coordinate is a genuine,
uniformly bounded real. -/
def ptBound (p : ℝ × ℝ × ℝ) : Prop := |p.1| ≤ 30 ∧ |p.2.1| ≤ 30 ∧ |p.2.2| ≤ 30

/-- The supported shape names, in the order `generateShapes` fills the
`targets` table (src/index.tsx lines 330-339). -/
def shapeNames : List String :=
  ["earth", "heart", "flower", "saturn", "buddha", "galaxy", "dna", "cube", "mobius"]

/-- The `targets` table built once by `generateShapes`
(src/index.tsx lines 330-339). -/
noncomputable def targetsList (rng : ℕ → ℕ → ℝ) : List (String × List (ℝ × ℝ × ℝ)) :=
  [("earth", generateEarth rng), ("heart", generateHeart rng),
   ("flower", generateFlower rng), ("saturn", generateSaturn rng),
   ("buddha", generateBuddha rng), ("galaxy", generateGalaxy rng),
   ("dna", generateDNA rng), ("cube", generateQuantumCube rng),
   ("mobius", generateMobiusStrip rng)]

/-- The per-frame target lookup `targets[currentShape] || targets.heart`
(src/index.tsx line 792): an unknown name silently falls back to the
heart field. -/
noncomputable def lookupTargets (rng : ℕ → ℕ → ℝ) (shape : String) : List (ℝ × ℝ × ℝ) :=
  ((targetsList rng).lookup shape).getD (generateHeart rng)

/-! ## Shape-switch handler (src/index.tsx lines 548-565)

The `change` listener assigns `currentShape = e.target.value` with no
validation, resets the target rotation, and special-cases the earth
color. No error is raised for unknown names. -/

/-- The mutable UI/simulation state the handler can see. -/
structure UIState where
  currentShape : String
  targetRotationX : ℚ
  targetRotationY : ℚ
  baseColor : String
  shockwave : ℚ
  bassFactor : ℚ
  trailsEnabled : Bool
  deriving DecidableEq

/-- The shape-select `change` handler (src/index.tsx lines 551-564). -/
def setShape (name : String) (s : UIState) : UIState :=
  { s with
      currentShape := name,
      targetRotationX := 0,
      targetRotationY := 0,
      baseColor := if name = "earth" then "#00aaff" else s.baseColor }

/-- A concrete state before a shape-switch request: earth active. -/
def demoState : UIState :=
  ⟨"earth", 0, 0, "#00aaff", 0, 0, true⟩

/-! # Theorems -/

/-! ## C6: the neighbor walk is bounded -/

theorem walkList_length_le (next : Nat → Int) :
    ∀ (fuel : Nat) (start : Int), (walkList next fuel start).length ≤ fuel := by
  intro fuel
  induction fuel with
  | zero => intro start; simp [walkList]
  | succ m ih =>
      intro start
      by_cases h : start = -1
      · simp [walkList, h]
      · simp only [walkList, if_neg h, List.length_cons]
        exact Nat.succ_le_succ (ih _)

/-- C6: for every grid state — any `next` pointer structure whatsoever,
including a single cell holding arbitrarily many particles — the
neighbor walk starting at a cell's head visits at most `maxVisits`
linked-list entries (8 in the collision resolver) and then stops, so it
terminates on every list regardless of its length. -/
theorem neighbor_walk_bounded :
    (∀ (next : Nat → Int) (maxVisits : Nat) (start : Int),
        (walkList next maxVisits start).length ≤ maxVisits)
    ∧ (∀ (next : Nat → Int) (start : Int), (walkList next 8 start).length ≤ 8) :=
  ⟨fun next maxVisits start => walkList_length_le next maxVisits start,
   fun next start => walkList_length_le next 8 start⟩

/-! ## C2: grid rebuild partition invariant -/

theorem walkList_congr (next next' : Nat → Int) :
    ∀ (fuel : Nat) (p : Int),
      (∀ j ∈ walkList next fuel p, next' j = next j) →
      walkList next' fuel p = walkList next fuel p := by
  intro fuel
  induction fuel with
  | zero => intro p _; rfl
  | succ m ih =>
      intro p h
      by_cases hp : p = -1
      · simp [walkList, hp]
      · have hmem : p.toNat ∈ walkList next (m + 1) p := by
          simp [walkList, hp]
        simp only [walkList, if_neg hp]
        rw [h _ hmem]
        congr 1
        refine ih (next p.toNat) fun j hj => h j ?_
        simp only [walkList, if_neg hp, List.mem_cons]
        exact Or.inr hj

theorem buildGrid_cellList (pos : Nat → ℚ × ℚ × ℚ) (next0 : Nat → Int) :
    ∀ (n fuel : Nat), n ≤ fuel → ∀ c : Int,
      walkList (buildGrid pos n next0).next fuel ((buildGrid pos n next0).head c)
        = ((List.range n).filter fun i => decide (cellKey3 (pos i) = some c)).reverse := by
  intro n
  induction n with
  | zero =>
      intro fuel _ c
      cases fuel <;> simp [buildGrid, gridClear, walkList]
  | succ m ih =>
      intro fuel hfuel c
      obtain ⟨f, rfl⟩ : ∃ f, fuel = f + 1 := ⟨fuel - 1, by omega⟩
      have hf : m ≤ f := by omega
      have hb : buildGrid pos (m + 1) next0 = gridInsert (buildGrid pos m next0) m (pos m) := by
        simp [buildGrid, List.range_succ]
      have hlt : ∀ (fl : Nat), m ≤ fl → ∀ c' : Int,
          ∀ j ∈ walkList (buildGrid pos m next0).next fl ((buildGrid pos m next0).head c'),
            j < m := by
        intro fl hfl c' j hj
        rw [ih fl hfl c'] at hj
        rw [List.mem_reverse, List.mem_filter, List.mem_range] at hj
        exact hj.1
      rw [hb]
      rcases hk : cellKey3 (pos m) with _ | d
      · -- out of domain: head untouched, next[m] = -1
        simp only [gridInsert, hk]
        have hcongr :
            walkList (fun j => if j = m then -1 else (buildGrid pos m next0).next j) (f + 1)
                ((buildGrid pos m next0).head c)
              = walkList (buildGrid pos m next0).next (f + 1)
                  ((buildGrid pos m next0).head c) := by
          refine walkList_congr _ _ (f + 1) _ fun j hj => ?_
          have : j < m := hlt (f + 1) (by omega) c j hj
          simp [Nat.ne_of_lt this]
        rw [hcongr, ih (f + 1) (by omega) c, List.range_succ, List.filter_append]
        simp [hk]
      · -- in domain, cell d: head[d] = m, next[m] = old head[d]
        simp only [gridInsert, hk]
        by_cases hcd : c = d
        · subst hcd
          have hnem : ((m : Int)) ≠ -1 := by omega
          simp only [eq_self_iff_true, if_true, walkList, if_neg hnem, Int.toNat_natCast]
          have hcongr :
              walkList (fun j => if j = m then (buildGrid pos m next0).head c
                    else (buildGrid pos m next0).next j) f
                  ((buildGrid pos m next0).head c)
                = walkList (buildGrid pos m next0).next f
                    ((buildGrid pos m next0).head c) := by
            refine walkList_congr _ _ f _ fun j hj => ?_
            have : j < m := hlt f hf c j hj
            simp [Nat.ne_of_lt this]
          rw [hcongr, ih f hf c, List.range_succ, List.filter_append]
          simp [hk]
        · have hhead : (if c = d then ((m : Nat) : Int)
              else (buildGrid pos m next0).head c) = (buildGrid pos m next0).head c :=
            if_neg hcd
          rw [hhead]
          have hcongr :
              walkList (fun j => if j = m then (buildGrid pos m next0).head d
                    else (buildGrid pos m next0).next j) (f + 1)
                  ((buildGrid pos m next0).head c)
                = walkList (buildGrid pos m next0).next (f + 1)
                    ((buildGrid pos m next0).head c) := by
            refine walkList_congr _ _ (f + 1) _ fun j hj => ?_
            have : j < m := hlt (f + 1) (by omega) c j hj
            simp [Nat.ne_of_lt this]
          rw [hcongr, ih (f + 1) (by omega) c, List.range_succ, List.filter_append]
          have : ¬ (d = c) := fun hdc => hcd hdc.symm
          simp [hk, this]

/-- C2: after the frame's grid rebuild (all cell heads reset to `-1`,
then one insert per particle at its current position), a particle index
`j` appears in a cell's linked list exactly when `j < n` and that cell is
the one computed from `floor((position + GRID_OFFSET)/CELL_SIZE)` with
all three axis coordinates in `[0, GRID_DIM)`; hence every in-domain
particle is in exactly one cell's list, the union of all lists is
exactly the set of in-domain particles, no list contains duplicates, and
out-of-domain particles appear in no list. -/
theorem grid_rebuild_partition (pos : Nat → ℚ × ℚ × ℚ) (n : Nat) (next0 : Nat → Int) :
    (∀ (c : Int) (j : Nat),
        j ∈ cellList (buildGrid pos n next0) n c ↔ j < n ∧ cellKey3 (pos j) = some c)
    ∧ ∀ c : Int, (cellList (buildGrid pos n next0) n c).Nodup := by
  have h := buildGrid_cellList pos next0 n n le_rfl
  constructor
  · intro c j
    rw [cellList, h c, List.mem_reverse, List.mem_filter, List.mem_range]
    simp
  · intro c
    rw [cellList, h c]
    exact List.nodup_reverse.mpr ((List.nodup_range n).filter _)

/-! ## C3: the pinch latch is edge-triggered -/

theorem pinchStep_eq (latch hit pinch : Bool) :
    pinchStep latch hit pinch = (hit && pinch, hit && pinch && !latch) := by
  revert latch hit pinch; decide

theorem pinchRun_eq_risingEdges (inputs : List (Bool × Bool)) :
    ∀ latch0 : Bool,
      pinchRun latch0 inputs = risingEdges latch0 (inputs.map fun q => q.1 && q.2) := by
  induction inputs with
  | nil => intro latch0; rfl
  | cons q rest ih =>
      intro latch0
      rcases q with ⟨h, p⟩
      simp only [pinchRun, risingEdges, List.map_cons, pinchStep_eq, ih]

theorem pinchRun_true_replicate (m : Nat) :
    pinchRun true (List.replicate m (true, true)) = 0 := by
  induction m with
  | zero => rfl
  | succ k ih => simpa [List.replicate_succ, pinchRun, pinchStep] using ih

theorem pinchRun_false_replicate (m : Nat) :
    pinchRun false (List.replicate (m + 1) (true, true)) = 1 := by
  simp [List.replicate_succ, pinchRun, pinchStep, pinchRun_true_replicate]

theorem latchAfter_replicate (m : Nat) :
    ∀ latch0 : Bool, latchAfter latch0 (List.replicate (m + 1) (true, true)) = true := by
  induction m with
  | zero => intro latch0; cases latch0 <;> rfl
  | succ k ih =>
      intro latch0
      rw [List.replicate_succ, latchAfter]
      cases latch0 <;> exact ih true

theorem pinchRun_append (l1 l2 : List (Bool × Bool)) :
    ∀ latch0 : Bool,
      pinchRun latch0 (l1 ++ l2) =
        pinchRun latch0 l1 + pinchRun (latchAfter latch0 l1) l2 := by
  induction l1 with
  | nil => intro latch0; simp [pinchRun, latchAfter]
  | cons q rest ih =>
      intro latch0
      rcases q with ⟨h, p⟩
      simp only [List.cons_append, List.append_eq, pinchRun, latchAfter]
      rw [ih]
      omega

/-- C3: the latch `pinchTriggered` makes the acquisition stream
edge-triggered. The event count over any scripted per-frame sequence of
(hit, pinch) booleans equals the number of rising edges of the conjoined
signal `hit ∧ pinch`; in particular a sustained pinch under a sustained
hit fires exactly once, and releasing the pinch (or losing the hit) for
one frame and re-asserting fires exactly one more event. -/
theorem pinch_debounce_edge_triggered :
    (∀ (latch0 : Bool) (inputs : List (Bool × Bool)),
        pinchRun latch0 inputs = risingEdges latch0 (inputs.map fun q => q.1 && q.2))
    ∧ (∀ m : Nat, pinchRun false (List.replicate (m + 1) (true, true)) = 1)
    ∧ (∀ a b : Nat,
        pinchRun false
          (List.replicate (a + 1) (true, true) ++
            (true, false) :: List.replicate (b + 1) (true, true)) = 2)
    ∧ (∀ a b : Nat,
        pinchRun false
          (List.replicate (a + 1) (true, true) ++
            (false, true) :: List.replicate (b + 1) (true, true)) = 2) := by
  refine ⟨fun latch0 inputs => pinchRun_eq_risingEdges inputs latch0,
    pinchRun_false_replicate, fun a b => ?_, fun a b => ?_⟩ <;>
    rw [pinchRun_append, latchAfter_replicate, pinchRun_false_replicate] <;>
    simp [pinchRun, pinchStep, pinchRun_false_replicate, List.replicate_succ,
      pinchRun_true_replicate]

/-! ## C4: shockwave injection paths (corrected)

The claim says the bass-energy path is the only way `shockwave` ever
increases. The code has a second injection path: a successful pinch
acquisition executes `shockwave = 0.5` (src/index.tsx line 837), which
raises `shockwave` whenever its decayed value is below 0.5. -/

/-- C4 counterexample: in a frame with no bass boost (`bassFactor ≤ 0.8`)
but a pinch acquisition, `shockwave` rises from 0 to 0.5 instead of
decaying to `0 * 0.95`. -/
theorem shockwave_extra_injection_cex :
    shockwaveFrame 0 false true = 1/2 ∧ (0 : ℚ) * 0.95 < shockwaveFrame 0 false true := by
  constructor <;> norm_num [shockwaveFrame]

/-- C4 (amended): `shockwave` is increased only by the bass path (add 0.1,
capped at 2.0, when the smoothed bass factor exceeds 0.8) or by the pinch
acquisition path (set to 0.5); in every frame with neither event it
decays exactly multiplicatively by 0.95. -/
theorem shockwave_injection_paths (s : ℚ) (bassBoost acquire : Bool) :
    (bassBoost = false → acquire = false → shockwaveFrame s bassBoost acquire = s * 0.95)
    ∧ (acquire = true → shockwaveFrame s bassBoost acquire = 1/2)
    ∧ (bassBoost = true → acquire = false →
        shockwaveFrame s bassBoost acquire = min (s * 0.95 + 0.1) 2)
    ∧ (s * 0.95 < shockwaveFrame s bassBoost acquire → bassBoost = true ∨ acquire = true) := by
  cases bassBoost <;> cases acquire <;> norm_num [shockwaveFrame]

/-- Witness for C4 (amended), at `s = 1`, no bass boost, acquisition on. -/
theorem shockwave_injection_paths_witness :
    shockwaveFrame 1 false true = 1/2 :=
  (shockwave_injection_paths 1 false true).2.1 rfl

/-! ## C8: damping convergence -/

theorem normSq_velStep (v : ℚ × ℚ × ℚ) :
    normSq (velStep v (0, 0, 0)) = 0.92 ^ 2 * normSq v := by
  rcases v with ⟨a, b, c⟩
  simp only [normSq, velStep]
  ring

theorem normSq_iterVel (t : Nat) : ∀ v : ℚ × ℚ × ℚ,
    normSq (iterVel t v) = (0.92 ^ 2) ^ t * normSq v := by
  induction t with
  | zero => intro v; simp [iterVel]
  | succ k ih =>
      intro v
      rw [iterVel, ih, normSq_velStep]
      ring

theorem normSq_pos (v : ℚ × ℚ × ℚ) (h : v ≠ (0, 0, 0)) : 0 < normSq v := by
  rcases v with ⟨a, b, c⟩
  have : a ≠ 0 ∨ b ≠ 0 ∨ c ≠ 0 := by
    by_contra hall
    push_neg at hall
    exact h (by simp [hall.1, hall.2.1, hall.2.2])
  simp only [normSq]
  rcases this with h1 | h1 | h1 <;>
    nlinarith [pow_two_pos_of_ne_zero h1, sq_nonneg a, sq_nonneg b, sq_nonneg c]

/-- C8: with zero spring/pointer/audio force contributions the integrator
multiplies velocity componentwise by 0.92 each frame; the squared
velocity magnitude then strictly decreases every frame (for nonzero
velocity), and from squared magnitude 100 (speed 10) it drops below
`(10⁻⁶)²` (speed 10⁻⁶) within 300 frames. -/
theorem damping_convergence (v : ℚ × ℚ × ℚ) :
    velStep v (0, 0, 0) = (v.1 * 0.92, v.2.1 * 0.92, v.2.2 * 0.92)
    ∧ (v ≠ (0, 0, 0) → normSq (velStep v (0, 0, 0)) < normSq v)
    ∧ (normSq v = 100 → normSq (iterVel 300 v) < (1/1000000) ^ 2) := by
  refine ⟨?_, fun h => ?_, fun h => ?_⟩
  · rcases v with ⟨a, b, c⟩
    simp only [velStep, Prod.mk.injEq]
    refine ⟨by ring, by ring, by ring⟩
  · rw [normSq_velStep]
    have := normSq_pos v h
    nlinarith
  · rw [normSq_iterVel, h]
    norm_num

/-- Witness for C8 at the initial velocity `(10, 0, 0)` of magnitude 10. -/
theorem damping_convergence_witness :
    normSq (velStep ((10 : ℚ), 0, 0) (0, 0, 0)) < normSq ((10 : ℚ), 0, 0)
    ∧ normSq (iterVel 300 ((10 : ℚ), 0, 0)) < (1/1000000) ^ 2 :=
  ⟨(damping_convergence ((10 : ℚ), 0, 0)).2.1 (by decide),
   (damping_convergence ((10 : ℚ), 0, 0)).2.2 (by norm_num [normSq])⟩

/-! ## C7: collision resolution is a no-op without overlaps -/

theorem resolvePair_no_overlap (i nb : Nat) (pos : Nat → ℝ × ℝ × ℝ)
    (h : ∀ a b : Nat, a ≠ b →
      (COLLISION_RADIUS : ℝ) * (COLLISION_RADIUS : ℝ) ≤ sqDist (pos a) (pos b)) :
    resolvePair i (pos i) nb pos = pos := by
  by_cases hni : nb = i
  · simp [resolvePair, hni]
  · have hge := h i nb fun hin => hni hin.symm
    have hnot : ¬ (0 < sqDist (pos i) (pos nb) ∧
        sqDist (pos i) (pos nb) < (COLLISION_RADIUS : ℝ) * (COLLISION_RADIUS : ℝ)) := by
      rintro ⟨_, hlt⟩
      exact absurd hge (not_le.mpr hlt)
    simp only [sqDist] at hnot
    simp only [resolvePair, if_neg hni]
    exact if_neg hnot

theorem resolveStep_no_overlap (g : Grid) (pos : Nat → ℝ × ℝ × ℝ) (i : Nat)
    (h : ∀ a b : Nat, a ≠ b →
      (COLLISION_RADIUS : ℝ) * (COLLISION_RADIUS : ℝ) ≤ sqDist (pos a) (pos b)) :
    resolveStep g pos i = pos := by
  have hfold : ∀ l : List Nat,
      l.foldl (fun pos' nb => resolvePair i (pos i) nb pos') pos = pos := by
    intro l
    induction l with
    | nil => rfl
    | cons a t iht =>
        rw [List.foldl_cons, resolvePair_no_overlap i a pos h]
        exact iht
  rcases hk : cellKey3R (pos i) with _ | c
  · simp only [resolveStep, hk]
  · simp only [resolveStep, hk]
    exact hfold _

/-- C7: if no two distinct particles are within `collisionRadius` of each
other (stated on squared distances: every pairwise squared distance is at
least `collisionRadius² = 0.15²`, equivalent to every pairwise distance
being at least 0.15), then one full collision-resolution pass — for any
grid head/next structure — leaves every particle's position unchanged. -/
theorem collision_pass_idempotent_no_overlap (g : Grid) (n : Nat) (pos : Nat → ℝ × ℝ × ℝ)
    (h : ∀ a b : Nat, a ≠ b →
      (COLLISION_RADIUS : ℝ) * (COLLISION_RADIUS : ℝ) ≤ sqDist (pos a) (pos b)) :
    collisionPass g n pos = pos := by
  have hfold : ∀ l : List Nat, l.foldl (resolveStep g) pos = pos := by
    intro l
    induction l with
    | nil => rfl
    | cons a t iht =>
        rw [List.foldl_cons, resolveStep_no_overlap g pos a h]
        exact iht
  exact hfold _

/-- Witness for C7: two particles 10 units apart (layout `spreadPos`),
empty grid lists; the pass returns the positions unchanged. -/
theorem collision_pass_idempotent_no_overlap_witness :
    collisionPass (gridClear fun _ => -1) 2 spreadPos = spreadPos := by
  refine collision_pass_idempotent_no_overlap _ 2 spreadPos fun a b hab => ?_
  have h2 : ((a : ℤ) : ℝ) ≠ ((b : ℤ) : ℝ) := by
    exact_mod_cast fun hev => hab (by exact_mod_cast hev)
  have h3 : (1 : ℤ) ≤ ((a : ℤ) - b) ^ 2 := by
    have hne : ((a : ℤ) - b) ≠ 0 := sub_ne_zero.mpr (by exact_mod_cast h2)
    have habs := Int.one_le_abs hne
    nlinarith [sq_abs ((a : ℤ) - b)]
  have h4 : (1 : ℝ) ≤ ((a : ℝ) - b) ^ 2 := by
    have := (by exact_mod_cast h3 : (1 : ℝ) ≤ (((a : ℤ) - b : ℤ) : ℝ) ^ 2)
    push_cast at this
    linarith
  simp only [sqDist, spreadPos, COLLISION_RADIUS]
  push_cast
  nlinarith [h4]

/-! ## C5: pointer interaction force -/

theorem cos_atan2 (y x : ℝ) (h : ¬ (x = 0 ∧ y = 0)) :
    Real.cos (atan2 y x) = x / Real.sqrt (x * x + y * y) := by
  have hz : (⟨x, y⟩ : ℂ) ≠ 0 := by
    intro h0
    have hre := congrArg Complex.re h0
    have him := congrArg Complex.im h0
    exact h ⟨hre, him⟩
  rw [atan2, Complex.cos_arg hz, Complex.abs_apply, Complex.normSq_mk]

theorem sin_atan2 (y x : ℝ) :
    Real.sin (atan2 y x) = y / Real.sqrt (x * x + y * y) := by
  rw [atan2, Complex.sin_arg, Complex.abs_apply, Complex.normSq_mk]

/-- C5: the pointer force (i) always has z-component exactly zero;
(ii) is zero for every particle when the active shape is the earth
shape; (iii) is zero for every particle when the pointer is at the
inactive sentinel (`mouse.x ≤ -100`); (iv) when applied with planar
squared distance `d² < 150` it has magnitude `1.2 * max 0 ((12-d)/12)`;
and (v) for a particle not coincident with the interaction point it is a
nonnegative multiple of the planar vector pointing away from the
interaction point. -/
theorem pointer_force_spec (shape : String) (mousex ipx ipy px py : ℝ) :
    (pointerForce shape mousex ipx ipy px py).2.2 = 0
    ∧ (shape = "earth" → pointerForce shape mousex ipx ipy px py = (0, 0, 0))
    ∧ (mousex ≤ -100 → pointerForce shape mousex ipx ipy px py = (0, 0, 0))
    ∧ (shape ≠ "earth" → mousex > -100 →
        (px - ipx) * (px - ipx) + (py - ipy) * (py - ipy) < 150 →
        Real.sqrt ((pointerForce shape mousex ipx ipy px py).1 ^ 2 +
            (pointerForce shape mousex ipx ipy px py).2.1 ^ 2)
          = 1.2 * max 0
              ((12 - Real.sqrt ((px - ipx) * (px - ipx) + (py - ipy) * (py - ipy))) / 12))
    ∧ (shape ≠ "earth" → mousex > -100 →
        (px - ipx) * (px - ipx) + (py - ipy) * (py - ipy) < 150 →
        ¬ (px - ipx = 0 ∧ py - ipy = 0) →
        ∃ c : ℝ, 0 ≤ c
          ∧ (pointerForce shape mousex ipx ipy px py).1 = c * (px - ipx)
          ∧ (pointerForce shape mousex ipx ipy px py).2.1 = c * (py - ipy)) := by
  refine ⟨?_, ?_, ?_, ?_, ?_⟩
  · simp only [pointerForce]
    split
    · split <;> rfl
    · rfl
  · intro h
    simp [pointerForce, h]
  · intro h
    have hA : ¬ (shape ≠ "earth" ∧
        (px - ipx) * (px - ipx) + (py - ipy) * (py - ipy) < 150 ∧ mousex > -100) := by
      rintro ⟨-, -, hgt⟩
      exact absurd hgt (not_lt.mpr h)
    simp only [pointerForce, if_neg hA]
  · intro h1 h2 h3
    have hA : shape ≠ "earth" ∧
        (px - ipx) * (px - ipx) + (py - ipy) * (py - ipy) < 150 ∧ mousex > -100 :=
      ⟨h1, h3, h2⟩
    simp only [pointerForce, if_pos hA]
    by_cases hf :
        (12 - Real.sqrt ((px - ipx) * (px - ipx) + (py - ipy) * (py - ipy))) / 12 > 0
    · rw [if_pos hf]
      have hs : (0 : ℝ) <
          1.2 * ((12 - Real.sqrt ((px - ipx) * (px - ipx) + (py - ipy) * (py - ipy))) / 12) :=
        mul_pos (by norm_num) hf
      have hsq :
          (Real.cos (atan2 (py - ipy) (px - ipx)) *
              (1.2 * ((12 - Real.sqrt ((px - ipx) * (px - ipx) + (py - ipy) * (py - ipy))) / 12))) ^ 2 +
            (Real.sin (atan2 (py - ipy) (px - ipx)) *
              (1.2 * ((12 - Real.sqrt ((px - ipx) * (px - ipx) + (py - ipy) * (py - ipy))) / 12))) ^ 2 =
            (Real.sin (atan2 (py - ipy) (px - ipx)) ^ 2 +
              Real.cos (atan2 (py - ipy) (px - ipx)) ^ 2) *
              (1.2 * ((12 - Real.sqrt ((px - ipx) * (px - ipx) + (py - ipy) * (py - ipy))) / 12)) ^ 2 := by
        ring

      rw [hsq, Real.sin_sq_add_cos_sq, one_mul, Real.sqrt_sq hs.le,
        max_eq_right hf.le]
    · rw [if_neg hf]
      have hle := le_of_not_lt hf
      rw [max_eq_left hle]
      norm_num
  · intro h1 h2 h3 h4
    have hA : shape ≠ "earth" ∧
        (px - ipx) * (px - ipx) + (py - ipy) * (py - ipy) < 150 ∧ mousex > -100 :=
      ⟨h1, h3, h2⟩
    simp only [pointerForce, if_pos hA]
    by_cases hf :
        (12 - Real.sqrt ((px - ipx) * (px - ipx) + (py - ipy) * (py - ipy))) / 12 > 0
    · rw [if_pos hf]
      refine ⟨(1.2 * ((12 - Real.sqrt ((px - ipx) * (px - ipx) + (py - ipy) * (py - ipy))) / 12)) /
          Real.sqrt ((px - ipx) * (px - ipx) + (py - ipy) * (py - ipy)), ?_, ?_, ?_⟩
      · exact div_nonneg (mul_pos (by norm_num) hf).le (Real.sqrt_nonneg _)
      · rw [cos_atan2 _ _ h4]
        ring
      · rw [sin_atan2]
        ring
    · rw [if_neg hf]
      exact ⟨0, le_rfl, by norm_num, by norm_num⟩

/-- Witness for C5 at shape "heart", active pointer at the origin of the
interaction plane, particle at `(3, 4)`: planar distance 5, force
magnitude `1.2 * 7/12 = 0.7`. -/
theorem pointer_force_spec_witness :
    ((3 : ℝ) - 0) * (3 - 0) + ((4 : ℝ) - 0) * (4 - 0) < 150
    ∧ Real.sqrt ((pointerForce "heart" 0 0 0 3 4).1 ^ 2 +
          (pointerForce "heart" 0 0 0 3 4).2.1 ^ 2)
        = 1.2 * max 0
            ((12 - Real.sqrt (((3 : ℝ) - 0) * (3 - 0) + ((4 : ℝ) - 0) * (4 - 0))) / 12) := by
  refine ⟨by norm_num, ?_⟩
  exact (pointer_force_spec "heart" 0 0 0 3 4).2.2.2.1 (by decide) (by norm_num) (by norm_num)

/-! ## C9: shape generation — completeness and bounded coordinates -/

theorem bnd_mul (a b m k : ℝ) (ha : |a| ≤ m) (hb : |b| ≤ k) : |a * b| ≤ m * k := by
  rw [abs_mul]
  exact mul_le_mul ha hb (abs_nonneg b) ((abs_nonneg a).trans ha)

theorem bnd_mul_one (a b m : ℝ) (ha : |a| ≤ m) (hb : |b| ≤ 1) : |a * b| ≤ m := by
  simpa using bnd_mul a b m 1 ha hb

theorem bnd_const (c : ℝ) (h : 0 ≤ c) : |c| ≤ c := le_of_eq (abs_of_nonneg h)

theorem bnd_lit (c m : ℝ) (h0 : 0 ≤ c) (h1 : c ≤ m) : |c| ≤ m := (bnd_const c h0).trans h1

theorem rng_abs_le_one {rng : ℕ → ℕ → ℝ} (hr : RngOk rng) (k j : ℕ) : |rng k j| ≤ 1 := by
  rcases hr k j with ⟨h0, h1⟩
  exact abs_le.mpr ⟨by linarith, by linarith⟩

theorem rng_centered {rng : ℕ → ℕ → ℝ} (hr : RngOk rng) (k j : ℕ) :
    |rng k j - 0.5| ≤ 0.5 := by
  rcases hr k j with ⟨h0, h1⟩
  exact abs_le.mpr ⟨by linarith, by linarith⟩

theorem generateEarth_length (rng : ℕ → ℕ → ℝ) :
    (generateEarth rng).length = PARTICLE_COUNT := by
  rw [generateEarth, List.length_ofFn]

theorem generateEarth_bound (rng : ℕ → ℕ → ℝ) : ∀ p ∈ generateEarth rng, ptBound p := by
  intro p hp
  rw [generateEarth, List.mem_ofFn] at hp
  obtain ⟨i, rfl⟩ := hp
  dsimp only
  split_ifs with hg <;>
    exact ⟨le_trans (bnd_mul_one _ _ _
        (bnd_mul_one _ _ _ (bnd_const _ (by norm_num)) (Real.abs_cos_le_one _))
        (Real.abs_sin_le_one _)) (by norm_num),
      le_trans (bnd_mul_one _ _ _
        (bnd_mul_one _ _ _ (bnd_const _ (by norm_num)) (Real.abs_sin_le_one _))
        (Real.abs_sin_le_one _)) (by norm_num),
      le_trans (bnd_mul_one _ _ _ (bnd_const _ (by norm_num)) (Real.abs_cos_le_one _))
        (by norm_num)⟩

theorem generateHeart_length (rng : ℕ → ℕ → ℝ) :
    (generateHeart rng).length = PARTICLE_COUNT := by
  rw [generateHeart, List.length_ofFn]

theorem generateHeart_bound (rng : ℕ → ℕ → ℝ) (hr : RngOk rng) :
    ∀ p ∈ generateHeart rng, ptBound p := by
  intro p hp
  rw [generateHeart, List.mem_ofFn] at hp
  obtain ⟨i, rfl⟩ := hp
  dsimp only
  set t := rng i 0 * (Real.pi * 2) with ht
  set Y := 13 * Real.cos t - 5 * Real.cos (2 * t) - 2 * Real.cos (3 * t) - Real.cos (4 * t)
    with hY
  have hsin3 : |Real.sin t ^ 3| ≤ 1 := by
    rw [abs_pow]
    exact pow_le_one₀ (abs_nonneg _) (Real.abs_sin_le_one t)
  have hYb : |Y| ≤ 21 := by
    rw [hY]
    refine abs_le.mpr ⟨?_, ?_⟩ <;>
      nlinarith [Real.cos_le_one t, Real.neg_one_le_cos t, Real.cos_le_one (2 * t),
        Real.neg_one_le_cos (2 * t), Real.cos_le_one (3 * t), Real.neg_one_le_cos (3 * t),
        Real.cos_le_one (4 * t), Real.neg_one_le_cos (4 * t)]
  refine ⟨?_, ?_, ?_⟩
  · exact le_trans (bnd_mul_one _ _ _
      (bnd_mul_one _ _ _ (bnd_const 16 (by norm_num)) hsin3)
      (bnd_lit 0.8 1 (by norm_num) (by norm_num))) (by norm_num)
  · exact le_trans (bnd_mul_one _ _ _ hYb (bnd_lit 0.8 1 (by norm_num) (by norm_num)))
      (by norm_num)
  · have hlast : |1 - |Y| / 25| ≤ 1 :=
      abs_le.mpr ⟨by nlinarith [hYb], by nlinarith [abs_nonneg Y]⟩
    have h5 : |(rng i 1 - 0.5) * 10| ≤ 5 := by
      have := bnd_mul (rng i 1 - 0.5) 10 0.5 10 (rng_centered hr i 1)
        (bnd_const 10 (by norm_num))
      linarith
    exact le_trans (bnd_mul_one _ _ _ h5 hlast) (by norm_num)

theorem generateFlower_length (rng : ℕ → ℕ → ℝ) :
    (generateFlower rng).length = PARTICLE_COUNT := by
  rw [generateFlower, List.length_ofFn]

theorem generateFlower_bound (rng : ℕ → ℕ → ℝ) (hr : RngOk rng) :
    ∀ p ∈ generateFlower rng, ptBound p := by
  intro p hp
  rw [generateFlower, List.mem_ofFn] at hp
  obtain ⟨i, rfl⟩ := hp
  dsimp only
  set u := rng i 0 * (Real.pi * 2) with hu
  set v := rng i 1 * Real.pi with hv
  have hR : |Real.cos (6 * u) * 10 + 6| ≤ 16 := by
    refine le_trans (abs_add _ _) ?_
    have h10 : |Real.cos (6 * u) * 10| ≤ 10 := by
      have := bnd_mul (Real.cos (6 * u)) 10 1 10 (Real.abs_cos_le_one (6 * u))
        (bnd_const 10 (by norm_num))
      linarith
    have h6 : |(6 : ℝ)| ≤ 6 := bnd_const 6 (by norm_num)
    linarith
  refine ⟨?_, ?_, ?_⟩
  · exact le_trans (bnd_mul_one _ _ _
      (bnd_mul_one _ _ _ hR (Real.abs_sin_le_one v)) (Real.abs_cos_le_one u)) (by norm_num)
  · refine le_trans (abs_add _ _) ?_
    have h2 : |(Real.cos (6 * u) * 10 + 6) * Real.cos v * 0.8| ≤ 16 :=
      bnd_mul_one _ _ _ (bnd_mul_one _ _ _ hR (Real.abs_cos_le_one v))
        (bnd_lit 0.8 1 (by norm_num) (by norm_num))
    have h3 : |(rng i 2 - 0.5) * 3| ≤ 1.5 := by
      have := bnd_mul (rng i 2 - 0.5) 3 0.5 3 (rng_centered hr i 2) (bnd_const 3 (by norm_num))
      linarith
    linarith
  · exact le_trans (bnd_mul_one _ _ _
      (bnd_mul_one _ _ _ hR (Real.abs_sin_le_one v)) (Real.abs_sin_le_one u)) (by norm_num)

theorem generateSaturn_length (rng : ℕ → ℕ → ℝ) :
    (generateSaturn rng).length = PARTICLE_COUNT := by
  rw [generateSaturn, List.length_ofFn]

theorem generateSaturn_bound (rng : ℕ → ℕ → ℝ) (hr : RngOk rng) :
    ∀ p ∈ generateSaturn rng, ptBound p := by
  intro p hp
  rw [generateSaturn, List.mem_ofFn] at hp
  obtain ⟨i, rfl⟩ := hp
  dsimp only
  split_ifs with hplanet
  · exact ⟨le_trans (bnd_mul_one _ _ _
        (bnd_mul_one _ _ _ (bnd_const 9 (by norm_num)) (Real.abs_sin_le_one _))
        (Real.abs_cos_le_one _)) (by norm_num),
      le_trans (bnd_mul_one _ _ _
        (bnd_mul_one _ _ _ (bnd_const 9 (by norm_num)) (Real.abs_sin_le_one _))
        (Real.abs_sin_le_one _)) (by norm_num),
      le_trans (bnd_mul_one _ _ _ (bnd_const 9 (by norm_num)) (Real.abs_cos_le_one _))
        (by norm_num)⟩
  · set angle := rng i 0 * (Real.pi * 2) with hangle
    have hdist : |14 + rng i 1 * 15| ≤ 29 := by
      rcases hr i 1 with ⟨h0, h1⟩
      exact abs_le.mpr ⟨by nlinarith, by nlinarith⟩
    have hrX : |Real.cos angle * (14 + rng i 1 * 15)| ≤ 29 := by
      have := bnd_mul (Real.cos angle) (14 + rng i 1 * 15) 1 29
        (Real.abs_cos_le_one angle) hdist
      linarith
    have hrZ : |Real.sin angle * (14 + rng i 1 * 15)| ≤ 29 := by
      have := bnd_mul (Real.sin angle) (14 + rng i 1 * 15) 1 29
        (Real.abs_sin_le_one angle) hdist
      linarith
    have hrY : |(rng i 2 - 0.5) * 0.5| ≤ 0.25 := by
      have := bnd_mul (rng i 2 - 0.5) 0.5 0.5 0.5 (rng_centered hr i 2)
        (bnd_const 0.5 (by norm_num))
      linarith
    refine ⟨?_, ?_, ?_⟩
    · have h1 := bnd_mul_one _ _ _ hrX (Real.abs_cos_le_one 0.4)
      have h2 := bnd_mul_one _ _ _ hrY (Real.abs_sin_le_one 0.4)
      calc |Real.cos angle * (14 + rng i 1 * 15) * Real.cos 0.4 -
              (rng i 2 - 0.5) * 0.5 * Real.sin 0.4|
          ≤ |Real.cos angle * (14 + rng i 1 * 15) * Real.cos 0.4| +
              |(rng i 2 - 0.5) * 0.5 * Real.sin 0.4| := abs_sub _ _
        _ ≤ 30 := by linarith
    · have h1 := bnd_mul_one _ _ _ hrX (Real.abs_sin_le_one 0.4)
      have h2 := bnd_mul_one _ _ _ hrY (Real.abs_cos_le_one 0.4)
      calc |Real.cos angle * (14 + rng i 1 * 15) * Real.sin 0.4 +
              (rng i 2 - 0.5) * 0.5 * Real.cos 0.4|
          ≤ |Real.cos angle * (14 + rng i 1 * 15) * Real.sin 0.4| +
              |(rng i 2 - 0.5) * 0.5 * Real.cos 0.4| := abs_add _ _
        _ ≤ 30 := by linarith
    · exact le_trans hrZ (by norm_num)

theorem buddhaSphere_length (rng : ℕ → ℕ → ℝ) (cx cy cz r : ℝ) (count : ℕ)
    (acc : List (ℝ × ℝ × ℝ)) :
    (buddhaSphere rng cx cy cz r count acc).length
      = acc.length + min count (PARTICLE_COUNT - acc.length) := by
  rw [buddhaSphere, List.length_append, List.length_map, List.length_range]

theorem generateBuddha_length (rng : ℕ → ℕ → ℝ) :
    (generateBuddha rng).length = PARTICLE_COUNT := by
  simp only [generateBuddha]
  rw [List.length_append, List.length_map, List.length_range]
  simp only [buddhaSphere_length, List.length_nil, PARTICLE_COUNT]
  omega

theorem buddhaSphere_bound (rng : ℕ → ℕ → ℝ) (cx cy cz r : ℝ) (count : ℕ)
    (acc : List (ℝ × ℝ × ℝ)) (hacc : ∀ p ∈ acc, ptBound p)
    (hcx : |cx| ≤ 10) (hcy : |cy| ≤ 10) (hcz : |cz| ≤ 10) (hrr : |r| ≤ 10) :
    ∀ p ∈ buddhaSphere rng cx cy cz r count acc, ptBound p := by
  intro p hp
  rw [buddhaSphere, List.mem_append] at hp
  rcases hp with hp | hp
  · exact hacc p hp
  · rw [List.mem_map] at hp
    obtain ⟨j, hj, rfl⟩ := hp
    dsimp only
    refine ⟨?_, ?_, ?_⟩
    · exact le_trans (abs_add _ _) (le_trans (add_le_add hcx (bnd_mul_one _ _ _
        (bnd_mul_one _ _ _ hrr (Real.abs_sin_le_one _)) (Real.abs_cos_le_one _)))
        (by norm_num))
    · exact le_trans (abs_add _ _) (le_trans (add_le_add hcy (bnd_mul_one _ _ _
        (bnd_mul_one _ _ _ hrr (Real.abs_sin_le_one _)) (Real.abs_sin_le_one _)))
        (by norm_num))
    · exact le_trans (abs_add _ _) (le_trans (add_le_add hcz
        (bnd_mul_one _ _ _ hrr (Real.abs_cos_le_one _))) (by norm_num))

theorem generateBuddha_bound (rng : ℕ → ℕ → ℝ) (hr : RngOk rng) :
    ∀ p ∈ generateBuddha rng, ptBound p := by
  have hnil : ∀ p ∈ ([] : List (ℝ × ℝ × ℝ)), ptBound p := by
    intro p hp
    exact absurd hp (List.not_mem_nil p)
  have hb1 := buddhaSphere_bound rng 0 (-6) 0 7 8750 [] hnil
    (abs_le.mpr (by norm_num)) (abs_le.mpr (by norm_num)) (abs_le.mpr (by norm_num))
    (abs_le.mpr (by norm_num))
  have hb2 := buddhaSphere_bound rng 0 2 0 4.5 6250 _ hb1
    (abs_le.mpr (by norm_num)) (abs_le.mpr (by norm_num)) (abs_le.mpr (by norm_num))
    (abs_le.mpr (by norm_num))
  have hb3 := buddhaSphere_bound rng 0 7.5 0 3 3750 _ hb2
    (abs_le.mpr (by norm_num)) (abs_le.mpr (by norm_num)) (abs_le.mpr (by norm_num))
    (abs_le.mpr (by norm_num))
  have hb4 := buddhaSphere_bound rng (-4.5) 1 0 2 1250 _ hb3
    (abs_le.mpr (by norm_num)) (abs_le.mpr (by norm_num)) (abs_le.mpr (by norm_num))
    (abs_le.mpr (by norm_num))
  have hb5 := buddhaSphere_bound rng 4.5 1 0 2 1250 _ hb4
    (abs_le.mpr (by norm_num)) (abs_le.mpr (by norm_num)) (abs_le.mpr (by norm_num))
    (abs_le.mpr (by norm_num))
  intro p hp
  simp only [generateBuddha] at hp
  rw [List.mem_append] at hp
  rcases hp with hp | hp
  · exact hb5 p hp
  · rw [List.mem_map] at hp
    obtain ⟨j, hj, rfl⟩ := hp
    have hrad : ∀ k : ℕ, |15 + rng k 1 * 3| ≤ 18 := by
      intro k
      rcases hr k 1 with ⟨h0, h1⟩
      exact abs_le.mpr ⟨by nlinarith, by nlinarith⟩
    have hy : ∀ k : ℕ, |(rng k 2 - 0.5) * 28| ≤ 30 := by
      intro k
      have := bnd_mul (rng k 2 - 0.5) 28 0.5 28 (rng_centered hr k 2)
        (bnd_const 28 (by norm_num))
      linarith
    exact ⟨le_trans (bnd_mul_one _ _ _ (hrad _) (Real.abs_cos_le_one _)) (by norm_num),
      hy _,
      le_trans (bnd_mul_one _ _ _ (hrad _) (Real.abs_sin_le_one _)) (by norm_num)⟩

theorem generateGalaxy_length (rng : ℕ → ℕ → ℝ) :
    (generateGalaxy rng).length = PARTICLE_COUNT := by
  rw [generateGalaxy, List.length_ofFn]

theorem generateGalaxy_bound (rng : ℕ → ℕ → ℝ) (hr : RngOk rng) :
    ∀ p ∈ generateGalaxy rng, ptBound p := by
  intro p hp
  rw [generateGalaxy, List.mem_ofFn] at hp
  obtain ⟨i, rfl⟩ := hp
  dsimp only
  rcases hr i 0 with ⟨ht0, ht1⟩
  have hrad : |rng i 0 * 20| ≤ 20 := by
    have := bnd_mul (rng i 0) 20 1 20 (rng_abs_le_one hr i 0) (bnd_const 20 (by norm_num))
    linarith
  have hspread : |(rng i 1 - 0.5) * (5 * rng i 0)| ≤ 2.5 := by
    have h5t : |5 * rng i 0| ≤ 5 := by
      have := bnd_mul 5 (rng i 0) 5 1 (bnd_const 5 (by norm_num)) (rng_abs_le_one hr i 0)
      linarith
    have := bnd_mul (rng i 1 - 0.5) (5 * rng i 0) 0.5 5 (rng_centered hr i 1) h5t
    linarith
  refine ⟨?_, ?_, ?_⟩
  · refine le_trans (abs_add _ _) ?_
    have hc := bnd_mul (Real.cos (rng i 0 * Real.pi * 2 * 3 +
        (((i : ℕ) % 5 : ℕ) : ℝ) * (Real.pi * 2 / 5))) (rng i 0 * 20) 1 20
      (Real.abs_cos_le_one _) hrad
    linarith
  · have hband : |3 * (1 - rng i 0) + 0.5| ≤ 3.5 :=
      abs_le.mpr ⟨by nlinarith, by nlinarith⟩
    have := bnd_mul (rng i 2 - 0.5) (3 * (1 - rng i 0) + 0.5) 0.5 3.5
      (rng_centered hr i 2) hband
    linarith
  · refine le_trans (abs_add _ _) ?_
    have hs := bnd_mul (Real.sin (rng i 0 * Real.pi * 2 * 3 +
        (((i : ℕ) % 5 : ℕ) : ℝ) * (Real.pi * 2 / 5))) (rng i 0 * 20) 1 20
      (Real.abs_sin_le_one _) hrad
    linarith

theorem generateDNA_length (rng : ℕ → ℕ → ℝ) :
    (generateDNA rng).length = PARTICLE_COUNT := by
  rw [generateDNA, List.length_ofFn]

theorem generateDNA_bound (rng : ℕ → ℕ → ℝ) (hr : RngOk rng) :
    ∀ p ∈ generateDNA rng, ptBound p := by
  intro p hp
  rw [generateDNA, List.mem_ofFn] at hp
  obtain ⟨i, rfl⟩ := hp
  dsimp only
  have hh : |(rng i 1 - 0.5) * 45| ≤ 22.5 := by
    have := bnd_mul (rng i 1 - 0.5) 45 0.5 45 (rng_centered hr i 1) (bnd_const 45 (by norm_num))
    linarith
  have hh30 : |(rng i 1 - 0.5) * 45| ≤ 30 := le_trans hh (by norm_num)
  split_ifs with h1 h2
  · refine ⟨?_, hh30, ?_⟩
    · refine le_trans (abs_add _ _) ?_
      have hc := bnd_mul (Real.cos ((rng i 1 - 0.5) * 45 * 0.6)) 6 1 6
        (Real.abs_cos_le_one _) (bnd_const 6 (by norm_num))
      have hj := rng_centered hr i 2
      linarith
    · refine le_trans (abs_add _ _) ?_
      have hs := bnd_mul (Real.sin ((rng i 1 - 0.5) * 45 * 0.6)) 6 1 6
        (Real.abs_sin_le_one _) (bnd_const 6 (by norm_num))
      have hj := rng_centered hr i 3
      linarith
  · refine ⟨?_, hh30, ?_⟩
    · refine le_trans (abs_add _ _) ?_
      have hc := bnd_mul (Real.cos ((rng i 1 - 0.5) * 45 * 0.6 + Real.pi)) 6 1 6
        (Real.abs_cos_le_one _) (bnd_const 6 (by norm_num))
      have hj := rng_centered hr i 2
      linarith
    · refine le_trans (abs_add _ _) ?_
      have hs := bnd_mul (Real.sin ((rng i 1 - 0.5) * 45 * 0.6 + Real.pi)) 6 1 6
        (Real.abs_sin_le_one _) (bnd_const 6 (by norm_num))
      have hj := rng_centered hr i 3
      linarith
  · have hx1 : |Real.cos ((rng i 1 - 0.5) * 45 * 0.6) * 6| ≤ 6 := by
      have := bnd_mul (Real.cos ((rng i 1 - 0.5) * 45 * 0.6)) 6 1 6
        (Real.abs_cos_le_one _) (bnd_const 6 (by norm_num))
      linarith
    have hx2 : |Real.cos ((rng i 1 - 0.5) * 45 * 0.6 + Real.pi) * 6| ≤ 6 := by
      have := bnd_mul (Real.cos ((rng i 1 - 0.5) * 45 * 0.6 + Real.pi)) 6 1 6
        (Real.abs_cos_le_one _) (bnd_const 6 (by norm_num))
      linarith
    have hz1 : |Real.sin ((rng i 1 - 0.5) * 45 * 0.6) * 6| ≤ 6 := by
      have := bnd_mul (Real.sin ((rng i 1 - 0.5) * 45 * 0.6)) 6 1 6
        (Real.abs_sin_le_one _) (bnd_const 6 (by norm_num))
      linarith
    have hz2 : |Real.sin ((rng i 1 - 0.5) * 45 * 0.6 + Real.pi) * 6| ≤ 6 := by
      have := bnd_mul (Real.sin ((rng i 1 - 0.5) * 45 * 0.6 + Real.pi)) 6 1 6
        (Real.abs_sin_le_one _) (bnd_const 6 (by norm_num))
      linarith
    have hp := rng_abs_le_one hr i 2
    refine ⟨?_, hh30, ?_⟩
    · refine le_trans (abs_add _ _) ?_
      have hd : |Real.cos ((rng i 1 - 0.5) * 45 * 0.6 + Real.pi) * 6 -
          Real.cos ((rng i 1 - 0.5) * 45 * 0.6) * 6| ≤ 12 :=
        le_trans (abs_sub _ _) (by linarith)
      have := bnd_mul (Real.cos ((rng i 1 - 0.5) * 45 * 0.6 + Real.pi) * 6 -
          Real.cos ((rng i 1 - 0.5) * 45 * 0.6) * 6) (rng i 2) 12 1 hd hp
      linarith
    · refine le_trans (abs_add _ _) ?_
      have hd : |Real.sin ((rng i 1 - 0.5) * 45 * 0.6 + Real.pi) * 6 -
          Real.sin ((rng i 1 - 0.5) * 45 * 0.6) * 6| ≤ 12 :=
        le_trans (abs_sub _ _) (by linarith)
      have := bnd_mul (Real.sin ((rng i 1 - 0.5) * 45 * 0.6 + Real.pi) * 6 -
          Real.sin ((rng i 1 - 0.5) * 45 * 0.6) * 6) (rng i 2) 12 1 hd hp
      linarith

theorem generateQuantumCube_length (rng : ℕ → ℕ → ℝ) :
    (generateQuantumCube rng).length = PARTICLE_COUNT := by
  rw [generateQuantumCube, List.length_ofFn]

theorem generateQuantumCube_bound (rng : ℕ → ℕ → ℝ) (hr : RngOk rng) :
    ∀ p ∈ generateQuantumCube rng, ptBound p := by
  intro p hp
  rw [generateQuantumCube, List.mem_ofFn] at hp
  obtain ⟨i, rfl⟩ := hp
  dsimp only
  set S : ℝ := if rng i 0 < 0.2 then 3 else if rng i 0 < 0.5 then 7 else 12 with hSdef
  set D : ℝ := if rng i 2 > 0.5 then 1 else -1 with hDdef
  have hS : |S| ≤ 12 := by
    rw [hSdef]
    split_ifs <;> exact abs_le.mpr (by norm_num)
  have hD : |D| ≤ 1 := by
    rw [hDdef]
    split_ifs <;> exact abs_le.mpr (by norm_num)
  have hSD : |S * D| ≤ 30 := le_trans (bnd_mul_one _ _ _ hS hD) (by norm_num)
  have hfree : ∀ j : ℕ, |(rng i j - 0.5) * 2 * S| ≤ 30 := by
    intro j
    have h2 : |(rng i j - 0.5) * 2| ≤ 1 := by
      have := bnd_mul (rng i j - 0.5) 2 0.5 2 (rng_centered hr i j) (bnd_const 2 (by norm_num))
      linarith
    exact le_trans (bnd_mul _ _ 1 12 h2 hS) (by norm_num)
  split_ifs with ha0 ha1
  · exact ⟨hSD, hfree 4, hfree 5⟩
  · exact ⟨hfree 3, hSD, hfree 5⟩
  · exact ⟨hfree 3, hfree 4, hSD⟩

theorem generateMobiusStrip_length (rng : ℕ → ℕ → ℝ) :
    (generateMobiusStrip rng).length = PARTICLE_COUNT := by
  rw [generateMobiusStrip, List.length_ofFn]

theorem generateMobiusStrip_bound (rng : ℕ → ℕ → ℝ) (hr : RngOk rng) :
    ∀ p ∈ generateMobiusStrip rng, ptBound p := by
  intro p hp
  rw [generateMobiusStrip, List.mem_ofFn] at hp
  obtain ⟨i, rfl⟩ := hp
  dsimp only
  have hv2 : |(rng i 1 - 0.5) * 6 / 2| ≤ 1.5 := by
    rw [abs_div]
    have := bnd_mul (rng i 1 - 0.5) 6 0.5 6 (rng_centered hr i 1) (bnd_const 6 (by norm_num))
    rw [abs_of_nonneg (by norm_num : (0 : ℝ) ≤ 2)]
    linarith
  have hvc : |(rng i 1 - 0.5) * 6 / 2 * Real.cos (rng i 0 * (Real.pi * 2) / 2)| ≤ 1.5 :=
    bnd_mul_one _ _ _ hv2 (Real.abs_cos_le_one _)
  have h10 : |10 + (rng i 1 - 0.5) * 6 / 2 * Real.cos (rng i 0 * (Real.pi * 2) / 2)| ≤ 11.5 := by
    refine le_trans (abs_add _ _) ?_
    have h10' : |(10 : ℝ)| ≤ 10 := bnd_const 10 (by norm_num)
    linarith
  refine ⟨?_, ?_, ?_⟩
  · exact le_trans (bnd_mul_one _ _ _ h10 (Real.abs_cos_le_one _)) (by norm_num)
  · exact le_trans (bnd_mul_one _ _ _ h10 (Real.abs_sin_le_one _)) (by norm_num)
  · exact le_trans (bnd_mul_one _ _ _ hv2 (Real.abs_sin_le_one _)) (by norm_num)

/-- C9: for every RNG sequence (all `Math.random()` draws in `[0,1)`),
the pre-generated `targets` table covers exactly the supported shape
names (earth, heart, flower, saturn, buddha, galaxy, dna, cube, mobius),
and every shape field in it has exactly `PARTICLE_COUNT` target points,
one per particle index, with every generated coordinate a well-defined
real number bounded by 30 in absolute value — the real-number rendering
of "finite, no NaN or Inf". -/
theorem shape_fields_complete (rng : ℕ → ℕ → ℝ) (hr : RngOk rng) :
    (targetsList rng).map Prod.fst = shapeNames
    ∧ ∀ entry ∈ targetsList rng,
        entry.2.length = PARTICLE_COUNT ∧ ∀ p ∈ entry.2, ptBound p := by
  constructor
  · simp [targetsList, shapeNames]
  · intro e he
    simp only [targetsList, List.mem_cons, List.not_mem_nil, or_false] at he
    rcases he with rfl | rfl | rfl | rfl | rfl | rfl | rfl | rfl | rfl <;> dsimp only
    · exact ⟨generateEarth_length rng, generateEarth_bound rng⟩
    · exact ⟨generateHeart_length rng, generateHeart_bound rng hr⟩
    · exact ⟨generateFlower_length rng, generateFlower_bound rng hr⟩
    · exact ⟨generateSaturn_length rng, generateSaturn_bound rng hr⟩
    · exact ⟨generateBuddha_length rng, generateBuddha_bound rng hr⟩
    · exact ⟨generateGalaxy_length rng, generateGalaxy_bound rng hr⟩
    · exact ⟨generateDNA_length rng, generateDNA_bound rng hr⟩
    · exact ⟨generateQuantumCube_length rng, generateQuantumCube_bound rng hr⟩
    · exact ⟨generateMobiusStrip_length rng, generateMobiusStrip_bound rng hr⟩

/-- Witness for C9 at the constant RNG stream `1/2`. -/
theorem shape_fields_complete_witness :
    (targetsList fun _ _ => 0.5).map Prod.fst = shapeNames
    ∧ ∀ entry ∈ targetsList fun _ _ => 0.5,
        entry.2.length = PARTICLE_COUNT ∧ ∀ p ∈ entry.2, ptBound p :=
  shape_fields_complete (fun _ _ => 0.5) (fun _ _ => by norm_num)

/-! ## C1: unknown shape-switch requests (corrected)

The claim says an unknown name fails with an `UnknownShapeError` and the
active shape is unchanged. The handler (src/index.tsx lines 551-564)
performs no validation: it stores the unknown name into `currentShape`,
and the frame loop (line 792) silently falls back to the heart field. -/

/-- C1 counterexample: switching from "earth" to the unknown name
"triangle" raises no error and *changes* the active shape name. -/
theorem unknown_shape_switch_cex :
    demoState.currentShape = "earth"
    ∧ "triangle" ∉ shapeNames
    ∧ (setShape "triangle" demoState).currentShape = "triangle"
    ∧ (setShape "triangle" demoState).currentShape ≠ demoState.currentShape := by
  refine ⟨rfl, by decide, rfl, by decide⟩

/-- C1 (amended): a shape-switch request with a name outside the
pre-generated set is accepted without any error: `currentShape` becomes
the unknown name, the per-frame target lookup falls back to the heart
field, and the rest of the simulation state is not corrupted. -/
theorem unknown_shape_switch_amended (name : String) (s : UIState) (rng : ℕ → ℕ → ℝ)
    (h : name ∉ shapeNames) :
    (setShape name s).currentShape = name
    ∧ lookupTargets rng ((setShape name s).currentShape) = generateHeart rng
    ∧ (setShape name s).shockwave = s.shockwave
    ∧ (setShape name s).bassFactor = s.bassFactor
    ∧ (setShape name s).trailsEnabled = s.trailsEnabled := by
  simp only [shapeNames, List.mem_cons, List.not_mem_nil, or_false] at h
  push_neg at h
  refine ⟨rfl, ?_, rfl, rfl, rfl⟩
  have hl : (targetsList rng).lookup ((setShape name s).currentShape) = none := by
    simp only [setShape, targetsList, List.lookup,
      beq_eq_false_iff_ne.mpr h.1, beq_eq_false_iff_ne.mpr h.2.1,
      beq_eq_false_iff_ne.mpr h.2.2.1, beq_eq_false_iff_ne.mpr h.2.2.2.1,
      beq_eq_false_iff_ne.mpr h.2.2.2.2.1, beq_eq_false_iff_ne.mpr h.2.2.2.2.2.1,
      beq_eq_false_iff_ne.mpr h.2.2.2.2.2.2.1, beq_eq_false_iff_ne.mpr h.2.2.2.2.2.2.2.1,
      beq_eq_false_iff_ne.mpr h.2.2.2.2.2.2.2.2]
  rw [lookupTargets, hl]
  exact Option.getD_none

/-- Witness for C1 (amended) at the unknown name "triangle". -/
theorem unknown_shape_switch_amended_witness :
    (setShape "triangle" demoState).currentShape = "triangle"
    ∧ lookupTargets (fun _ _ => 0) ((setShape "triangle" demoState).currentShape)
        = generateHeart (fun _ _ => 0)
    ∧ (setShape "triangle" demoState).shockwave = demoState.shockwave
    ∧ (setShape "triangle" demoState).bassFactor = demoState.bassFactor
    ∧ (setShape "triangle" demoState).trailsEnabled = demoState.trailsEnabled :=
  unknown_shape_switch_amended "triangle" demoState (fun _ _ => 0) (by decide)

/-! ## C10: degenerate geometry is defensively skipped -/

theorem degenerate_ray_no_force (se ma : Bool) (ox oy oz a b px py : ℝ) :
    pointerForceF se ma
        (interactPointF (FP.fin ox) (FP.fin oy) (FP.fin oz) (FP.fin a) (FP.fin b) (FP.fin 0)).1
        (interactPointF (FP.fin ox) (FP.fin oy) (FP.fin oz) (FP.fin a) (FP.fin b)
          (FP.fin 0)).2.1
        (FP.fin px) (FP.fin py)
      = (FP.fin 0, FP.fin 0, FP.fin 0) := by
  by_cases hoz : oz = 0 <;> by_cases ha : a = 0 <;> by_cases hb : b = 0 <;>
    simp [pointerForceF, interactPointF, FP.sub, FP.add, FP.neg, FP.mul, FP.div, FP.lt,
      hoz, ha, hb]

theorem coincident_pair_skipped (i nb : Nat) (pos : Nat → ℝ × ℝ × ℝ)
    (h : pos nb = pos i) :
    resolvePair i (pos i) nb pos = pos := by
  by_cases hni : nb = i
  · simp [resolvePair, hni]
  · simp [resolvePair, hni, h]

/-- C10: degenerate geometry never reaches the position buffer.
(i) A pointer ray parallel to the z = 0 interaction plane (direction
z-component exactly 0), evaluated in the IEEE-style scalar model `FP`
(where the code's division `(0 - origin.z) / direction.z` produces
`±Infinity` or `NaN` instead of an error), always fails the
`distSq < 150` guard, so the pointer force applied to every particle is
the finite zero vector — no NaN reaches a position.
(ii) A zero-distance (coincident) particle pair fails the `d2 > 0` guard
of the collision resolver, so the pair is skipped and positions are
returned unchanged — the division by `sqrt(d2) = 0` is never taken. -/
theorem degenerate_geometry_safe :
    (∀ (se ma : Bool) (ox oy oz a b px py : ℝ),
        pointerForceF se ma
            (interactPointF (FP.fin ox) (FP.fin oy) (FP.fin oz) (FP.fin a) (FP.fin b)
              (FP.fin 0)).1
            (interactPointF (FP.fin ox) (FP.fin oy) (FP.fin oz) (FP.fin a) (FP.fin b)
              (FP.fin 0)).2.1
            (FP.fin px) (FP.fin py)
          = (FP.fin 0, FP.fin 0, FP.fin 0))
    ∧ (∀ (i nb : Nat) (pos : Nat → ℝ × ℝ × ℝ), pos nb = pos i →
        resolvePair i (pos i) nb pos = pos) :=
  ⟨degenerate_ray_no_force, coincident_pair_skipped⟩

/-- Witness for C10: camera-like ray origin `(0, 0, 45)` with a
plane-parallel direction `(1, 1, 0)`, and a fully coincident layout. -/
theorem degenerate_geometry_safe_witness :
    pointerForceF false true
        (interactPointF (FP.fin 0) (FP.fin 0) (FP.fin 45) (FP.fin 1) (FP.fin 1)
          (FP.fin 0)).1
        (interactPointF (FP.fin 0) (FP.fin 0) (FP.fin 45) (FP.fin 1) (FP.fin 1)
          (FP.fin 0)).2.1
        (FP.fin 3) (FP.fin 4)
      = (FP.fin 0, FP.fin 0, FP.fin 0)
    ∧ resolvePair 0 (coincidentPos 0) 1 coincidentPos = coincidentPos :=
  ⟨degenerate_geometry_safe.1 false true 0 0 45 1 1 3 4,
   degenerate_geometry_safe.2 0 1 coincidentPos rfl⟩

end Shoushi
